import Mathlib

/-!
# Verification of the `rkyv_intern` string-interning crate

A shallow embedding of the crate's data model and operations:

* string content is modelled as its sequence of bytes (`Content := List Nat`);
* the default registry `InternSerializeMap` (src/alloc.rs) is a content → position
  table with unique keys, modelled as an association list;
* the provided trait method `serialize_interned` (src/lib.rs) is modelled in explicit
  state-passing style, generic over the underlying encoder state `σ` and its
  `serialize_unsized` operation;
* the interned string representation (src/string.rs) with its inline / out-of-line
  split, its two-phase serialize/resolve protocol, and its shared-region validator;
* the capability adapter `InternSerializerAdapter` (src/lib.rs), generic over the
  wrapped serializer's primitive operations.
-/

/-- String content, modelled as its sequence of bytes. -/
abbrev Content := List Nat

/-- Error type of the default registry (src/alloc.rs, `InternSerializeMapError`). -/
inductive InternSerializeMapError where
  | DuplicateKeyAdded
deriving DecidableEq

/-- Association-list lookup by content equality, modelling `HashMap::get`. -/
def lookupContent (l : List (Content × Nat)) (v : Content) : Option Nat :=
  match l with
  | [] => none
  | (k, p) :: rest => if k = v then some p else lookupContent rest v

/-- The default in-memory registry (src/alloc.rs, `InternSerializeMap`):
a map from owned string content to the position it was first written at.
The `HashMap` is modelled as an association list whose keys are unique. -/
structure InternSerializeMap where
  value_to_pos : List (Content × Nat)
deriving DecidableEq

/-- `InternSerializeMap::get_interned` (src/alloc.rs): pure lookup by content. -/
def InternSerializeMap.get_interned (m : InternSerializeMap) (v : Content) : Option Nat :=
  lookupContent m.value_to_pos v

/-- `InternSerializeMap::add_interned` (src/alloc.rs): insert if the key is vacant,
otherwise fail with `DuplicateKeyAdded`.  The `Entry::Vacant` test is exactly
"lookup finds nothing". -/
def InternSerializeMap.add_interned (m : InternSerializeMap) (v : Content) (pos : Nat) :
    Except InternSerializeMapError InternSerializeMap :=
  match m.get_interned v with
  | some _ => .error .DuplicateKeyAdded
  | none => .ok ⟨(v, pos) :: m.value_to_pos⟩

/-- The two-sided error of the adapter (src/lib.rs, `InternSerializerAdapterError`). -/
inductive InternSerializerAdapterError (ε ι : Type) where
  | SerializerError (e : ε)
  | InternError (e : ι)
deriving DecidableEq

/-- The provided trait method `InternSerializeRegistry::serialize_interned`
(src/lib.rs lines 45–59), in explicit state-passing style.  `σ` is the state of the
underlying serializer and `su` its `serialize_unsized` operation, which returns the
result (position where the value's bytes were written) together with the updated
serializer state — on error the partially mutated state, matching `&mut self` in
Rust.  The registry is the default map; the method body only uses `get_interned`
and `add_interned`.  (The Rust body also makes the owned copy `T::from(value)`
before writing; the copy is semantically the content itself.)  Errors are tagged
with the side that produced them, as in the adapter instantiation. -/
def serialize_interned {σ ε : Type} (su : σ → Content → Except ε Nat × σ)
    (s : σ) (reg : InternSerializeMap) (v : Content) :
    Except (InternSerializerAdapterError ε InternSerializeMapError) Nat
      × σ × InternSerializeMap :=
  match reg.get_interned v with
  | some pos => (.ok pos, s, reg)
  | none =>
    match su s v with
    | (.error e, s') => (.error (.SerializerError e), s', reg)
    | (.ok pos, s') =>
      match reg.add_interned v pos with
      | .error e => (.error (.InternError e), s', reg)
      | .ok reg' => (.ok pos, s', reg')

/-- Modelled from the spec: the external encoder's "write this unsized value and
give me its offset" operation for raw string bytes — append the bytes at the end
of the output buffer and return the position they start at.  This operation of the
host framework is outside the crate's sources; §6 of the spec describes it. -/
def strWriteUnsized (buf : List Nat) (v : Content) : Except Empty Nat × List Nat :=
  (.ok buf.length, buf ++ v)

/-- Modelled from the spec: the fixed small-string threshold `INLINE_CAPACITY`
of the host framework's string representation (a constant of the external
collaborator; the crate only compares `value.len()` against it).  The default
32-bit layout gives 7. -/
def INLINE_CAPACITY : Nat := 7

/-- The resolver produced by the discover/write phase (src/string.rs,
`InternedStringResolver`): the position the out-of-line bytes were written at,
or 0 when no offset is needed (inline case). -/
structure InternedStringResolver where
  pos : Nat
deriving DecidableEq

/-- Modelled from the spec: the tagged string representation of the host
framework (`ArchivedStringRepr`): either inline bytes, or a length together with
a signed self-relative offset from the slot to the shared bytes. -/
inductive ArchivedStringRepr where
  | inline (bytes : Content)
  | outOfLine (len : Nat) (offset : Int)
deriving DecidableEq

/-- Error of emplacing an out-of-line representation whose offset does not fit. -/
inductive ReprError where
  | offsetOverflow
deriving DecidableEq

/-- Modelled from the spec: `ArchivedStringRepr::emplace_out_of_line` — store the
length and the signed self-relative offset `target - pos` (shared-bytes position
minus slot position).  The offset width is 32-bit signed; an offset outside that
range is a fatal encoding error, never truncated or wrapped. -/
def emplace_out_of_line (value : Content) (pos target : Nat) :
    Except ReprError ArchivedStringRepr :=
  let off : Int := (target : Int) - (pos : Int)
  if -(2 ^ 31) ≤ off ∧ off < 2 ^ 31 then .ok (.outOfLine value.length off)
  else .error .offsetOverflow

/-- `ArchivedInternedString::resolve_from_str` (src/string.rs lines 44–55):
emplace the inline variant when the byte length is at most `INLINE_CAPACITY`,
otherwise emplace the out-of-line variant from the slot position and the
resolver's recorded position. -/
def resolve_from_str (value : Content) (pos : Nat) (resolver : InternedStringResolver) :
    Except ReprError ArchivedStringRepr :=
  if value.length ≤ INLINE_CAPACITY then .ok (.inline value)
  else emplace_out_of_line value pos resolver.pos

/-- Modelled from the spec: `as_str` decoding — dispatch on the tag; inline bytes
are embedded in the slot, an out-of-line slot reads `len` bytes at the absolute
address `slot position + stored offset` of the buffer.  `none` models a read
outside the buffer (undefined for the unchecked Rust accessor). -/
def as_str (repr : ArchivedStringRepr) (slotPos : Nat) (buffer : Content) :
    Option Content :=
  match repr with
  | .inline bytes => some bytes
  | .outOfLine len off =>
    let addr : Int := (slotPos : Int) + off
    if 0 ≤ addr ∧ addr.toNat + len ≤ buffer.length then
      some ((buffer.drop addr.toNat).take len)
    else none

/-- `ArchivedInternedString::serialize_from_str` (src/string.rs lines 59–73):
inline-sized values produce the resolver `{ pos := 0 }` with no serializer or
registry interaction; larger values go through `serialize_interned`. -/
def serialize_from_str {σ ε : Type} (su : σ → Content → Except ε Nat × σ)
    (value : Content) (s : σ) (reg : InternSerializeMap) :
    Except (InternSerializerAdapterError ε InternSerializeMapError) InternedStringResolver
      × σ × InternSerializeMap :=
  if value.length ≤ INLINE_CAPACITY then (.ok ⟨0⟩, s, reg)
  else
    match serialize_interned su s reg value with
    | (.ok pos, s', reg') => (.ok ⟨pos⟩, s', reg')
    | (.error e, s', reg') => (.error e, s', reg')

/-- One encoding pass serialising a sequence of string fields in traversal order
through `serialize_from_str`, short-circuiting on the first error. -/
def serializeMany {σ ε : Type} (su : σ → Content → Except ε Nat × σ)
    (vs : List Content) (s : σ) (reg : InternSerializeMap) :
    Except (InternSerializerAdapterError ε InternSerializeMapError)
      (List InternedStringResolver) × σ × InternSerializeMap :=
  match vs with
  | [] => (.ok [], s, reg)
  | v :: rest =>
    match serialize_from_str su v s reg with
    | (.error e, s', reg') => (.error e, s', reg')
    | (.ok r, s', reg') =>
      match serializeMany su rest s' reg' with
      | (.error e, s'', reg'') => (.error e, s'', reg'')
      | (.ok rs, s'', reg'') => (.ok (r :: rs), s'', reg'')

/-- Error of validating one interned string slot (src/string.rs,
`CheckOwnedPointerError` / `OwnedPointerError`). -/
inductive CheckOwnedPointerError where
  | ValueCheckBytesError
  | ContextError
deriving DecidableEq

/-- Modelled from the spec: validation state shared across the slots of one
validation pass — the set of registered shared addresses (the host context's
`register_shared_ptr` bookkeeping), plus the log of addresses whose out-of-line
content was actually handed to `str::check_bytes` (the per-region visits the
dedup property counts). -/
structure SharedValidationContext where
  shared_ptrs : List Int
  visited : List Int
deriving DecidableEq

/-- Modelled from the spec: the host context's `register_shared_ptr` — returns
`true` and registers the address when it is seen for the first time, `false`
when it is already registered. -/
def register_shared_ptr (ctx : SharedValidationContext) (addr : Int) :
    Bool × SharedValidationContext :=
  if addr ∈ ctx.shared_ptrs then (false, ctx)
  else (true, { ctx with shared_ptrs := addr :: ctx.shared_ptrs })

/-- Modelled from the spec: `str::check_bytes` — the content check run on each
visited region (UTF-8 validity, modelled as every byte being a valid scalar). -/
def str_check_bytes (bytes : Content) : Bool :=
  bytes.all (· < 1114112)

/-- `ArchivedInternedString::check_bytes` (src/string.rs lines 216–258):
inline slots are validated directly; an out-of-line slot computes its absolute
address, bounds-checks it (`check_ptr`), then consults `register_shared_ptr`:
a newly registered address has its content checked (logged in `visited`), an
already-registered address skips re-validation. -/
def check_bytes (repr : ArchivedStringRepr) (slotPos : Nat) (buffer : Content)
    (ctx : SharedValidationContext) :
    Except CheckOwnedPointerError SharedValidationContext :=
  match repr with
  | .inline bytes =>
    if str_check_bytes bytes then .ok ctx else .error .ValueCheckBytesError
  | .outOfLine len off =>
    let addr : Int := (slotPos : Int) + off
    if 0 ≤ addr ∧ addr.toNat + len ≤ buffer.length then
      match register_shared_ptr ctx addr with
      | (true, ctx1) =>
        if str_check_bytes ((buffer.drop addr.toNat).take len) then
          .ok { ctx1 with visited := addr :: ctx1.visited }
        else .error .ValueCheckBytesError
      | (false, ctx1) => .ok ctx1
    else .error .ContextError

/-- One validation pass over a list of slots (position and representation),
aborting on the first error. -/
def check_bytes_many (slots : List (Nat × ArchivedStringRepr)) (buffer : Content)
    (ctx : SharedValidationContext) :
    Except CheckOwnedPointerError SharedValidationContext :=
  match slots with
  | [] => .ok ctx
  | (p, r) :: rest =>
    match check_bytes r p buffer ctx with
    | .error e => .error e
    | .ok ctx' => check_bytes_many rest buffer ctx'

/-- `n` slots all referencing the same out-of-line region: address `a`,
length `len`, each slot at its own position with the matching self-relative
offset. -/
def slotsFor (a : Int) (len : Nat) (ps : List Nat) : List (Nat × ArchivedStringRepr) :=
  ps.map (fun p => (p, .outOfLine len (a - (p : Int))))

/-- The capability-composition adapter (src/lib.rs, `InternSerializerAdapter`):
a wrapped serializer state together with an intern registry state. -/
structure InternSerializerAdapter (σ τ : Type) where
  serializer : σ
  intern_registry : τ
deriving DecidableEq

/-- Adapter `Serializer::pos` (src/lib.rs line 142): pure delegation. -/
def InternSerializerAdapter.pos {σ τ : Type} (p : σ → Nat)
    (a : InternSerializerAdapter σ τ) : Nat :=
  p a.serializer

/-- Adapter `Serializer::write` (src/lib.rs line 147): delegate, wrapping any
failure as `SerializerError`. -/
def InternSerializerAdapter.write {σ τ ε ι : Type} (w : σ → List Nat → Except ε σ)
    (a : InternSerializerAdapter σ τ) (bytes : List Nat) :
    Except (InternSerializerAdapterError ε ι) (InternSerializerAdapter σ τ) :=
  ((w a.serializer bytes).map fun s => { a with serializer := s }).mapError .SerializerError

/-- Adapter `Serializer::pad` (src/lib.rs line 153): pure delegation. -/
def InternSerializerAdapter.pad {σ τ ε ι : Type} (pd : σ → Nat → Except ε σ)
    (a : InternSerializerAdapter σ τ) (padding : Nat) :
    Except (InternSerializerAdapterError ε ι) (InternSerializerAdapter σ τ) :=
  ((pd a.serializer padding).map fun s => { a with serializer := s }).mapError .SerializerError

/-- Adapter `Serializer::align` (src/lib.rs line 159): pure delegation. -/
def InternSerializerAdapter.align {σ τ ε ι : Type} (al : σ → Nat → Except ε (Nat × σ))
    (a : InternSerializerAdapter σ τ) (alignment : Nat) :
    Except (InternSerializerAdapterError ε ι) (Nat × InternSerializerAdapter σ τ) :=
  ((al a.serializer alignment).map fun r => (r.1, { a with serializer := r.2 })).mapError
    .SerializerError

/-- Adapter `Serializer::align_for` (src/lib.rs line 165): pure delegation (the
target type's alignment demand is abstracted into the underlying operation). -/
def InternSerializerAdapter.align_for {σ τ ε ι : Type} (al : σ → Except ε (Nat × σ))
    (a : InternSerializerAdapter σ τ) :
    Except (InternSerializerAdapterError ε ι) (Nat × InternSerializerAdapter σ τ) :=
  ((al a.serializer).map fun r => (r.1, { a with serializer := r.2 })).mapError
    .SerializerError

/-- Adapter `Serializer::resolve_aligned` (src/lib.rs line 171): pure delegation;
`α` is the value type, `ρ` its resolver type. -/
def InternSerializerAdapter.resolve_aligned {σ τ ε ι α ρ : Type}
    (ra : σ → α → ρ → Except ε (Nat × σ)) (a : InternSerializerAdapter σ τ)
    (value : α) (resolver : ρ) :
    Except (InternSerializerAdapterError ε ι) (Nat × InternSerializerAdapter σ τ) :=
  ((ra a.serializer value resolver).map fun r => (r.1, { a with serializer := r.2 })).mapError
    .SerializerError

/-- Adapter `Serializer::resolve_unsized_aligned` (src/lib.rs line 177): pure
delegation; `μ` is the metadata-resolver type. -/
def InternSerializerAdapter.resolve_unsized_aligned {σ τ ε ι α μ : Type}
    (ru : σ → α → Nat → μ → Except ε (Nat × σ)) (a : InternSerializerAdapter σ τ)
    (value : α) (toPos : Nat) (metadata_resolver : μ) :
    Except (InternSerializerAdapterError ε ι) (Nat × InternSerializerAdapter σ τ) :=
  ((ru a.serializer value toPos metadata_resolver).map
    fun r => (r.1, { a with serializer := r.2 })).mapError .SerializerError

/-- Adapter `ScratchSpace::push_scratch` (src/lib.rs line 128): pure delegation;
the layout and the returned pointer are abstracted as numbers. -/
def InternSerializerAdapter.push_scratch {σ τ ε ι : Type}
    (ps : σ → Nat → Except ε (Nat × σ)) (a : InternSerializerAdapter σ τ)
    (layout : Nat) :
    Except (InternSerializerAdapterError ε ι) (Nat × InternSerializerAdapter σ τ) :=
  ((ps a.serializer layout).map fun r => (r.1, { a with serializer := r.2 })).mapError
    .SerializerError

/-- Adapter `ScratchSpace::pop_scratch` (src/lib.rs line 134): pure delegation. -/
def InternSerializerAdapter.pop_scratch {σ τ ε ι : Type}
    (pp : σ → Nat → Nat → Except ε σ) (a : InternSerializerAdapter σ τ)
    (ptr layout : Nat) :
    Except (InternSerializerAdapterError ε ι) (InternSerializerAdapter σ τ) :=
  ((pp a.serializer ptr layout).map fun s => { a with serializer := s }).mapError
    .SerializerError

/-- Adapter `SharedSerializeRegistry::get_shared_ptr` (src/lib.rs line 185):
pure delegation, no error to wrap. -/
def InternSerializerAdapter.get_shared_ptr {σ τ : Type} (g : σ → Nat → Option Nat)
    (a : InternSerializerAdapter σ τ) (value : Nat) : Option Nat :=
  g a.serializer value

/-- Adapter `SharedSerializeRegistry::add_shared_ptr` (src/lib.rs line 190):
delegate, wrapping any failure as `SerializerError`. -/
def InternSerializerAdapter.add_shared_ptr {σ τ ε ι : Type}
    (ad : σ → Nat → Nat → Except ε σ) (a : InternSerializerAdapter σ τ)
    (value pos : Nat) :
    Except (InternSerializerAdapterError ε ι) (InternSerializerAdapter σ τ) :=
  ((ad a.serializer value pos).map fun s => { a with serializer := s }).mapError
    .SerializerError

/-- Adapter `InternSerializeRegistry::get_interned` (src/lib.rs line 198):
pure delegation to the composed registry. -/
def InternSerializerAdapter.get_interned {σ τ : Type} (g : τ → Content → Option Nat)
    (a : InternSerializerAdapter σ τ) (value : Content) : Option Nat :=
  g a.intern_registry value

/-- Adapter `InternSerializeRegistry::add_interned` (src/lib.rs line 206):
delegate to the composed registry, wrapping any failure as `InternError`. -/
def InternSerializerAdapter.add_interned {σ τ ε ι : Type}
    (ad : τ → Content → Nat → Except ι τ) (a : InternSerializerAdapter σ τ)
    (value : Content) (pos : Nat) :
    Except (InternSerializerAdapterError ε ι) (InternSerializerAdapter σ τ) :=
  ((ad a.intern_registry value pos).map
    fun t => { a with intern_registry := t }).mapError .InternError

/-- `Intern::deserialize_with` for an interned string (src/impls/alloc.rs lines
30–34): return an owned copy of exactly the string `as_str` reads from the
archived form. -/
def deserialize_with (field : ArchivedStringRepr) (slotPos : Nat) (buffer : Content) :
    Option Content :=
  as_str field slotPos buffer

/-- `Intern::serialize_with` for `Option` (src/impls/core/option.rs lines 57–62):
`None` produces no resolver and touches nothing; `Some` forwards to the inner
serialization. -/
def serialize_with_opt {σ ε : Type} (su : σ → Content → Except ε Nat × σ)
    (field : Option Content) (s : σ) (reg : InternSerializeMap) :
    Except (InternSerializerAdapterError ε InternSerializeMapError)
      (Option InternedStringResolver) × σ × InternSerializeMap :=
  match field with
  | none => (.ok none, s, reg)
  | some v =>
    match serialize_from_str su v s reg with
    | (.ok r, s', reg') => (.ok (some r), s', reg')
    | (.error e, s', reg') => (.error e, s', reg')

/-- `Intern::resolve_with` for `Option` (src/impls/core/option.rs lines 30–50):
a `None` resolver emits the `None` variant; a `Some` resolver emits the `Some`
variant around the inner resolution.  The source reaches
`unreachable_unchecked` when the resolver is `Some` but the field is `None`
(the safety contract rules it out); the model returns `none` there. -/
def resolve_with_opt (field : Option Content) (pos : Nat)
    (resolver : Option InternedStringResolver) :
    Option (Except ReprError (Option ArchivedStringRepr)) :=
  match resolver with
  | none => some (.ok none)
  | some r =>
    match field with
    | some v => some ((resolve_from_str v pos r).map some)
    | none => none

/-- `Intern::deserialize_with` for `Option` (src/impls/core/option.rs lines
69–74): `None` maps to `None`, `Some` forwards to the inner deserialization. -/
def deserialize_with_opt (field : Option ArchivedStringRepr) (slotPos : Nat)
    (buffer : Content) : Option (Option Content) :=
  match field with
  | none => some none
  | some f => (deserialize_with f slotPos buffer).map some

/-- An underlying encoder whose `serialize_unsized` fails without writing,
used to exercise the error path of `serialize_interned`. -/
def failingWriteUnsized (buf : List Nat) (_v : Content) : Except Unit Nat × List Nat :=
  (.error (), buf)

/-- The full encode/decode pipeline for one optional interned string field:
discover/write phase (`serialize_with_opt`), resolve/place phase
(`resolve_with_opt`) at slot position `q`, then decoding the placed
representation against the final buffer (`deserialize_with_opt`).  `none`
models a failing or undefined stage. -/
def roundTrip (ov : Option Content) (buf : List Nat) (reg : InternSerializeMap)
    (q : Nat) : Option (Option Content) :=
  match serialize_with_opt strWriteUnsized ov buf reg with
  | (.ok res, s', _) =>
    match resolve_with_opt ov q res with
    | some (.ok repr) => deserialize_with_opt repr q s'
    | _ => none
  | (.error _, _, _) => none

/-! ## Helper lemmas -/

theorem get_interned_cons_self (l : List (Content × Nat)) (v : Content) (p : Nat) :
    InternSerializeMap.get_interned ⟨(v, p) :: l⟩ v = some p := by
  simp [InternSerializeMap.get_interned, lookupContent]

theorem add_interned_of_get_none (m : InternSerializeMap) (v : Content) (p : Nat)
    (h : m.get_interned v = none) :
    m.add_interned v p = .ok ⟨(v, p) :: m.value_to_pos⟩ := by
  simp [InternSerializeMap.add_interned, h]

theorem serialize_interned_hit {σ ε : Type} (su : σ → Content → Except ε Nat × σ)
    (s : σ) (reg : InternSerializeMap) (v : Content) (p : Nat)
    (h : reg.get_interned v = some p) :
    serialize_interned su s reg v = (.ok p, s, reg) := by
  simp [serialize_interned, h]

theorem serialize_interned_miss {σ ε : Type} (su : σ → Content → Except ε Nat × σ)
    (s s' : σ) (reg : InternSerializeMap) (v : Content) (p : Nat)
    (h : reg.get_interned v = none) (hsu : su s v = (.ok p, s')) :
    serialize_interned su s reg v = (.ok p, s', ⟨(v, p) :: reg.value_to_pos⟩) := by
  simp [serialize_interned, h, hsu, add_interned_of_get_none reg v p h]

theorem serialize_from_str_inline {σ ε : Type} (su : σ → Content → Except ε Nat × σ)
    (v : Content) (s : σ) (reg : InternSerializeMap)
    (hv : v.length ≤ INLINE_CAPACITY) :
    serialize_from_str su v s reg = (.ok ⟨0⟩, s, reg) := by
  simp [serialize_from_str, hv]

theorem serialize_from_str_hit {σ ε : Type} (su : σ → Content → Except ε Nat × σ)
    (v : Content) (s : σ) (reg : InternSerializeMap) (p : Nat)
    (hv : INLINE_CAPACITY < v.length) (h : reg.get_interned v = some p) :
    serialize_from_str su v s reg = (.ok ⟨p⟩, s, reg) := by
  simp [serialize_from_str, Nat.not_le.mpr hv, serialize_interned_hit su s reg v p h]

theorem serialize_from_str_miss (v : Content) (buf : List Nat)
    (reg : InternSerializeMap) (hv : INLINE_CAPACITY < v.length)
    (h : reg.get_interned v = none) :
    serialize_from_str strWriteUnsized v buf reg =
      (.ok ⟨buf.length⟩, buf ++ v, ⟨(v, buf.length) :: reg.value_to_pos⟩) := by
  simp [serialize_from_str, Nat.not_le.mpr hv,
    serialize_interned_miss strWriteUnsized buf (buf ++ v) reg v buf.length h rfl]

theorem resolve_from_str_out (v : Content) (q p : Nat)
    (hv : INLINE_CAPACITY < v.length) (hq : q < 2 ^ 31) (hp : p < 2 ^ 31) :
    resolve_from_str v q ⟨p⟩ = .ok (.outOfLine v.length ((p : Int) - q)) := by
  have hq' : (q : Int) < 2147483648 := by exact_mod_cast Nat.lt_of_lt_of_le hq (by norm_num)
  have hp' : (p : Int) < 2147483648 := by exact_mod_cast Nat.lt_of_lt_of_le hp (by norm_num)
  simp only [resolve_from_str, if_neg (Nat.not_le.mpr hv), emplace_out_of_line]
  rw [if_pos]
  constructor
  · have h0q : (0 : Int) ≤ (q : Int) := Int.natCast_nonneg q
    have h0p : (0 : Int) ≤ (p : Int) := Int.natCast_nonneg p
    have : -((2 : Int) ^ 31) = -2147483648 := by norm_num
    omega
  · have h0q : (0 : Int) ≤ (q : Int) := Int.natCast_nonneg q
    have : ((2 : Int) ^ 31) = 2147483648 := by norm_num
    omega

theorem as_str_out_of_line (v : Content) (buf : List Nat) (q : Nat) :
    as_str (.outOfLine v.length ((buf.length : Int) - q)) q (buf ++ v) = some v := by
  have haddr : (q : Int) + ((buf.length : Int) - q) = (buf.length : Int) := by ring
  simp only [as_str, haddr]
  rw [if_pos]
  · rw [Int.toNat_natCast, List.drop_left, List.take_length]
  · refine ⟨Int.natCast_nonneg _, ?_⟩
    rw [Int.toNat_natCast, List.length_append]

theorem serializeMany_replicate_hit {σ ε : Type} (su : σ → Content → Except ε Nat × σ)
    (n : Nat) (v : Content) (s : σ) (reg : InternSerializeMap) (p : Nat)
    (hv : INLINE_CAPACITY < v.length) (h : reg.get_interned v = some p) :
    serializeMany su (List.replicate n v) s reg =
      (.ok (List.replicate n ⟨p⟩), s, reg) := by
  induction n with
  | zero => simp [serializeMany]
  | succ k ih =>
    rw [List.replicate_succ, List.replicate_succ]
    simp only [serializeMany, serialize_from_str_hit su v s reg p hv h, ih]

theorem check_bytes_inline_ok (bytes : Content) (q : Nat) (buffer : Content)
    (ctx : SharedValidationContext) (hok : str_check_bytes bytes = true) :
    check_bytes (.inline bytes) q buffer ctx = .ok ctx := by
  simp [check_bytes, hok]

theorem check_bytes_out_skip (len : Nat) (off : Int) (p : Nat) (buffer : Content)
    (ctx : SharedValidationContext)
    (hmem : (p : Int) + off ∈ ctx.shared_ptrs)
    (hlo : 0 ≤ (p : Int) + off)
    (hhi : ((p : Int) + off).toNat + len ≤ buffer.length) :
    check_bytes (.outOfLine len off) p buffer ctx = .ok ctx := by
  simp only [check_bytes]
  rw [if_pos ⟨hlo, hhi⟩]
  simp [register_shared_ptr, hmem]

theorem check_bytes_out_first (len : Nat) (off : Int) (p : Nat) (buffer : Content)
    (ctx : SharedValidationContext)
    (hnew : (p : Int) + off ∉ ctx.shared_ptrs)
    (hlo : 0 ≤ (p : Int) + off)
    (hhi : ((p : Int) + off).toNat + len ≤ buffer.length)
    (hok : str_check_bytes ((buffer.drop ((p : Int) + off).toNat).take len) = true) :
    check_bytes (.outOfLine len off) p buffer ctx =
      .ok ⟨((p : Int) + off) :: ctx.shared_ptrs, ((p : Int) + off) :: ctx.visited⟩ := by
  simp only [check_bytes]
  rw [if_pos ⟨hlo, hhi⟩]
  simp [register_shared_ptr, hnew, hok]

theorem check_bytes_many_skip (a : Int) (len : Nat) (buffer : Content)
    (ps : List Nat) (ctx : SharedValidationContext)
    (hmem : a ∈ ctx.shared_ptrs) (hlo : 0 ≤ a)
    (hhi : a.toNat + len ≤ buffer.length) :
    check_bytes_many (slotsFor a len ps) buffer ctx = .ok ctx := by
  induction ps with
  | nil => rfl
  | cons p rest ih =>
    have haddr : (p : Int) + (a - (p : Int)) = a := by ring
    have hskip := check_bytes_out_skip len (a - (p : Int)) p buffer ctx
      (haddr.symm ▸ hmem) (haddr.symm ▸ hlo) (haddr.symm ▸ hhi)
    simp only [slotsFor, List.map_cons, check_bytes_many, hskip]
    simpa only [slotsFor] using ih

/-! ## Claim theorems -/

/-- C1: for every call of `serialize_interned` on a value: if the prior
`get_interned` lookup for equal content returns an offset, that offset is
returned and the underlying serializer is untouched (zero bytes written);
otherwise the underlying encoder writes the content (`serialize_unsized`),
the returned offset is recorded in the registry via `add_interned`, and that
offset is returned. -/
theorem serialize_interned_lookup_or_write {σ ε : Type}
    (su : σ → Content → Except ε Nat × σ) (s : σ) (reg : InternSerializeMap)
    (v : Content) :
    (∀ p, reg.get_interned v = some p →
      serialize_interned su s reg v = (.ok p, s, reg)) ∧
    (reg.get_interned v = none → ∀ p s', su s v = (.ok p, s') →
      serialize_interned su s reg v = (.ok p, s', ⟨(v, p) :: reg.value_to_pos⟩)) :=
  ⟨fun p h => serialize_interned_hit su s reg v p h,
   fun h p s' hsu => serialize_interned_miss su s s' reg v p h hsu⟩

theorem serialize_interned_lookup_or_write_witness :
    serialize_interned strWriteUnsized [] ⟨[]⟩ [1, 2, 3] =
      (.ok 0, [1, 2, 3], ⟨[([1, 2, 3], 0)]⟩) :=
  (serialize_interned_lookup_or_write strWriteUnsized [] ⟨[]⟩ [1, 2, 3]).2 rfl 0 [1, 2, 3] rfl

/-- C4: after a successful `add_interned(v, p)`, a second `add_interned` for
content equal to `v` fails with `DuplicateKeyAdded`, regardless of the offset
`p'` passed the second time. -/
theorem add_interned_duplicate (m m' : InternSerializeMap) (v : Content) (p p' : Nat)
    (h : m.add_interned v p = .ok m') :
    m'.add_interned v p' = .error .DuplicateKeyAdded := by
  unfold InternSerializeMap.add_interned at h
  cases hget : m.get_interned v with
  | some q => rw [hget] at h; exact absurd h (by simp)
  | none =>
    rw [hget] at h
    injection h with h2
    subst h2
    simp [InternSerializeMap.add_interned, get_interned_cons_self]

theorem add_interned_duplicate_witness :
    InternSerializeMap.add_interned ⟨[([4, 5], 0)]⟩ [4, 5] 9 =
      .error .DuplicateKeyAdded :=
  add_interned_duplicate ⟨[]⟩ ⟨[([4, 5], 0)]⟩ [4, 5] 0 9 rfl

/-- C9: error atomicity of `serialize_interned` — if the underlying
`serialize_unsized` call fails on the lookup-miss path, the error propagates
(tagged as a serializer-side error) and the registry is unchanged:
`add_interned` is never reached, so no entry is recorded for the value. -/
theorem serialize_interned_error_atomic {σ ε : Type}
    (su : σ → Content → Except ε Nat × σ) (s s' : σ) (reg : InternSerializeMap)
    (v : Content) (e : ε) (hmiss : reg.get_interned v = none)
    (herr : su s v = (.error e, s')) :
    serialize_interned su s reg v = (.error (.SerializerError e), s', reg) := by
  simp [serialize_interned, hmiss, herr]

theorem serialize_interned_error_atomic_witness :
    serialize_interned failingWriteUnsized [] ⟨[]⟩ [7] =
      (.error (.SerializerError ()), [], ⟨[]⟩) :=
  serialize_interned_error_atomic failingWriteUnsized [] [] ⟨[]⟩ [7] () rfl rfl

/-- C10: phase consistency — `serialize_from_str` and `resolve_from_str`
branch on the same test `len(value) ≤ INLINE_CAPACITY`; for every inline-sized
value the serialize phase produces the resolver `{ pos := 0 }` with no state
change, and the resolve phase emits the inline variant identically for every
resolver (the `pos` field is ignored), so the two phases can never disagree
about the variant emitted; larger values resolve through
`emplace_out_of_line`. -/
theorem serialize_resolve_phase_consistency {σ ε : Type}
    (su : σ → Content → Except ε Nat × σ) (v : Content) (s : σ)
    (reg : InternSerializeMap) (q : Nat) :
    (v.length ≤ INLINE_CAPACITY →
      serialize_from_str su v s reg = (.ok ⟨0⟩, s, reg) ∧
      ∀ r r' : InternedStringResolver,
        resolve_from_str v q r = .ok (.inline v) ∧
        resolve_from_str v q r = resolve_from_str v q r') ∧
    (INLINE_CAPACITY < v.length →
      ∀ r : InternedStringResolver,
        resolve_from_str v q r = emplace_out_of_line v q r.pos) := by
  constructor
  · intro hv
    exact ⟨serialize_from_str_inline su v s reg hv,
      fun r r' => by simp [resolve_from_str, hv]⟩
  · intro hv r
    simp [resolve_from_str, Nat.not_le.mpr hv]

theorem serialize_resolve_phase_consistency_witness :
    (serialize_from_str strWriteUnsized [3] [] ⟨[]⟩ = (.ok ⟨0⟩, [], ⟨[]⟩) ∧
      resolve_from_str [3] 5 ⟨42⟩ = .ok (.inline [3]) ∧
      resolve_from_str [3] 5 ⟨42⟩ = resolve_from_str [3] 5 ⟨0⟩) ∧
    resolve_from_str [0, 1, 2, 3, 4, 5, 6, 7] 5 ⟨42⟩ =
      emplace_out_of_line [0, 1, 2, 3, 4, 5, 6, 7] 5 42 := by
  have h := serialize_resolve_phase_consistency strWriteUnsized [3] [] ⟨[]⟩ 5
  have h' := serialize_resolve_phase_consistency strWriteUnsized
    [0, 1, 2, 3, 4, 5, 6, 7] [] ⟨[]⟩ 5
  exact ⟨⟨(h.1 (by decide)).1, ((h.1 (by decide)).2 ⟨42⟩ ⟨0⟩).1,
    ((h.1 (by decide)).2 ⟨42⟩ ⟨0⟩).2⟩, h'.2 (by decide) ⟨42⟩⟩

/-- C3: for every string of byte length at most `INLINE_CAPACITY`:
`serialize_from_str` performs no registry interaction and creates no registry
entry (serializer state and registry are returned unchanged, for every
underlying encoder), `resolve_from_str` emits the inline variant directly,
and decoding with `as_str` returns the string exactly. -/
theorem inline_string_no_registry {σ ε : Type}
    (su : σ → Content → Except ε Nat × σ) (v : Content) (s : σ)
    (reg : InternSerializeMap) (q : Nat) (buffer : Content)
    (hv : v.length ≤ INLINE_CAPACITY) :
    serialize_from_str su v s reg = (.ok ⟨0⟩, s, reg) ∧
    (∀ r : InternedStringResolver, resolve_from_str v q r = .ok (.inline v)) ∧
    as_str (.inline v) q buffer = some v := by
  refine ⟨serialize_from_str_inline su v s reg hv, fun r => ?_, rfl⟩
  simp [resolve_from_str, hv]

theorem inline_string_no_registry_witness :
    serialize_from_str strWriteUnsized [9, 9] [5] ⟨[([1], 0)]⟩ =
      (.ok ⟨0⟩, [5], ⟨[([1], 0)]⟩) ∧
    resolve_from_str [9, 9] 3 ⟨77⟩ = .ok (.inline [9, 9]) ∧
    as_str (.inline [9, 9]) 3 [5] = some [9, 9] := by
  have h := inline_string_no_registry strWriteUnsized [9, 9] [5] ⟨[([1], 0)]⟩ 3 [5]
    (by decide)
  exact ⟨h.1, h.2.1 ⟨77⟩, h.2.2⟩

/-- C2: a string longer than `INLINE_CAPACITY` serialized `k ≥ 2` times in one
encoding pass has its out-of-line bytes written to the output buffer exactly
once — the first occurrence appends them at the then-current end of the buffer
and that position becomes the permanent storage location — and all `k`
resolvers carry that same offset; consequently every slot, wherever it is
placed, decodes to the original string and resolves to the same absolute
address. -/
theorem interned_string_deduplicated (k : Nat) (v : Content) (buf : List Nat)
    (reg : InternSerializeMap) (hk : 2 ≤ k) (hv : INLINE_CAPACITY < v.length)
    (hfresh : reg.get_interned v = none) :
    serializeMany strWriteUnsized (List.replicate k v) buf reg =
      (.ok (List.replicate k ⟨buf.length⟩), buf ++ v,
        ⟨(v, buf.length) :: reg.value_to_pos⟩) ∧
    ∀ q : Nat, q < 2 ^ 31 → buf.length < 2 ^ 31 →
      resolve_from_str v q ⟨buf.length⟩ =
        .ok (.outOfLine v.length ((buf.length : Int) - q)) ∧
      as_str (.outOfLine v.length ((buf.length : Int) - q)) q (buf ++ v) = some v ∧
      (q : Int) + ((buf.length : Int) - q) = (buf.length : Int) := by
  constructor
  · obtain ⟨n, rfl⟩ : ∃ n, k = n + 1 := ⟨k - 1, by omega⟩
    rw [List.replicate_succ, List.replicate_succ]
    simp only [serializeMany, serialize_from_str_miss v buf reg hv hfresh,
      serializeMany_replicate_hit strWriteUnsized n v (buf ++ v)
        ⟨(v, buf.length) :: reg.value_to_pos⟩ buf.length hv
        (get_interned_cons_self reg.value_to_pos v buf.length)]
  · intro q hq hb
    exact ⟨resolve_from_str_out v q buf.length hv hq hb,
      as_str_out_of_line v buf q, by ring⟩

theorem interned_string_deduplicated_witness :
    serializeMany strWriteUnsized (List.replicate 2 [0, 1, 2, 3, 4, 5, 6, 7]) [] ⟨[]⟩ =
      (.ok (List.replicate 2 ⟨0⟩), [0, 1, 2, 3, 4, 5, 6, 7],
        ⟨[([0, 1, 2, 3, 4, 5, 6, 7], 0)]⟩) ∧
    resolve_from_str [0, 1, 2, 3, 4, 5, 6, 7] 3 ⟨0⟩ =
      .ok (.outOfLine 8 (-3)) ∧
    as_str (.outOfLine 8 (-3)) 3 [0, 1, 2, 3, 4, 5, 6, 7] =
      some [0, 1, 2, 3, 4, 5, 6, 7] := by
  have h := interned_string_deduplicated 2 [0, 1, 2, 3, 4, 5, 6, 7] [] ⟨[]⟩
    (by decide) (by decide) rfl
  exact ⟨h.1, (h.2 3 (by decide) (by decide)).1, (h.2 3 (by decide) (by decide)).2.1⟩

/-- C8: constructing an out-of-line encoding for a value whose self-relative
offset (shared-bytes position minus slot position) falls outside the
representable signed 32-bit range is a fatal encoding error
(`offsetOverflow`), never a truncated or wrapped offset. -/
theorem out_of_line_offset_overflow (v : Content) (pos target : Nat)
    (hv : INLINE_CAPACITY < v.length)
    (hoff : (target : Int) - pos < -(2 ^ 31) ∨ 2 ^ 31 ≤ (target : Int) - pos) :
    resolve_from_str v pos ⟨target⟩ = .error .offsetOverflow := by
  simp only [resolve_from_str, if_neg (Nat.not_le.mpr hv), emplace_out_of_line]
  rw [if_neg]
  rintro ⟨h1, h2⟩
  rcases hoff with h | h
  · exact absurd h1 (not_le.mpr h)
  · exact absurd h2 (not_lt.mpr h)

theorem out_of_line_offset_overflow_witness :
    resolve_from_str [0, 1, 2, 3, 4, 5, 6, 7] 0 ⟨2147483648⟩ =
      .error .offsetOverflow :=
  out_of_line_offset_overflow [0, 1, 2, 3, 4, 5, 6, 7] 0 2147483648
    (by decide) (Or.inr (by norm_num))

/-- C7: round-trip law — encoding an optional interned string field through the
`Intern` wrapper's `Option` combinator (discover/write, then resolve/place,
then decode) recovers a value equal to the original under content equality:
`deserialize_with` returns exactly the string `as_str` reads, and `Option`
presence/absence is preserved. -/
theorem intern_round_trip (ov : Option Content) (buf : List Nat)
    (reg : InternSerializeMap) (q : Nat)
    (hfresh : ∀ v, ov = some v → reg.get_interned v = none)
    (hq : q < 2 ^ 31) (hbuf : buf.length < 2 ^ 31) :
    roundTrip ov buf reg q = some ov := by
  match ov with
  | none => rfl
  | some v =>
    by_cases hv : v.length ≤ INLINE_CAPACITY
    · simp [roundTrip, serialize_with_opt,
        serialize_from_str_inline strWriteUnsized v buf reg hv,
        resolve_with_opt, resolve_from_str, hv, deserialize_with_opt,
        deserialize_with, as_str, Except.map]
    · have hfresh' := hfresh v rfl
      have hv' := Nat.not_le.mp hv
      simp [roundTrip, serialize_with_opt,
        serialize_from_str_miss v buf reg hv' hfresh',
        resolve_with_opt, resolve_from_str_out v q buf.length hv' hq hbuf,
        deserialize_with_opt, deserialize_with, as_str_out_of_line v buf q,
        Except.map]

theorem intern_round_trip_witness :
    roundTrip (some [1, 2, 3, 4, 5, 6, 7, 8]) [] ⟨[]⟩ 0 =
      some (some [1, 2, 3, 4, 5, 6, 7, 8]) :=
  intern_round_trip (some [1, 2, 3, 4, 5, 6, 7, 8]) [] ⟨[]⟩ 0
    (fun v hv => by injection hv with h; subst h; rfl) (by decide) (by decide)

/-- C5: during validation of an untrusted buffer, each physically distinct
out-of-line region is content-validated exactly once per pass no matter how
many slots reference it: a pass over any number of slots all referencing the
region at address `a` registers `a` on the first encounter, checks its content
there, and leaves exactly one visit of `a` in the log; any later encounter of
an already-registered address skips re-validation and leaves the context
unchanged; inline slots are validated directly with no shared-state
tracking. -/
theorem validator_checks_region_once (a : Int) (len : Nat) (buffer : Content)
    (p : Nat) (ps : List Nat) (hlo : 0 ≤ a)
    (hhi : a.toNat + len ≤ buffer.length)
    (hok : str_check_bytes ((buffer.drop a.toNat).take len) = true) :
    check_bytes_many (slotsFor a len (p :: ps)) buffer ⟨[], []⟩ = .ok ⟨[a], [a]⟩ ∧
    (∀ (q : Nat) (ctx : SharedValidationContext), a ∈ ctx.shared_ptrs →
      check_bytes (.outOfLine len (a - (q : Int))) q buffer ctx = .ok ctx) ∧
    (∀ (bytes : Content) (q : Nat) (ctx : SharedValidationContext),
      str_check_bytes bytes = true →
      check_bytes (.inline bytes) q buffer ctx = .ok ctx) := by
  refine ⟨?_, ?_, ?_⟩
  · have haddr : (p : Int) + (a - (p : Int)) = a := by ring
    have hfirst := check_bytes_out_first len (a - (p : Int)) p buffer ⟨[], []⟩
      (haddr.symm ▸ List.not_mem_nil a) (haddr.symm ▸ hlo) (haddr.symm ▸ hhi)
      (haddr.symm ▸ hok)
    rw [haddr] at hfirst
    simp only [slotsFor, List.map_cons, check_bytes_many, hfirst]
    exact check_bytes_many_skip a len buffer ps ⟨[a], [a]⟩
      (List.mem_singleton.mpr rfl) hlo hhi
  · intro q ctx hmem
    have haddr : (q : Int) + (a - (q : Int)) = a := by ring
    exact check_bytes_out_skip len (a - (q : Int)) q buffer ctx
      (haddr.symm ▸ hmem) (haddr.symm ▸ hlo) (haddr.symm ▸ hhi)
  · intro bytes q ctx hb
    exact check_bytes_inline_ok bytes q buffer ctx hb

theorem validator_checks_region_once_witness :
    check_bytes_many (slotsFor 0 2 [4, 9, 9]) [5, 6] ⟨[], []⟩ = .ok ⟨[0], [0]⟩ ∧
    check_bytes (.outOfLine 2 (0 - (7 : Int))) 7 [5, 6] ⟨[0], [0]⟩ = .ok ⟨[0], [0]⟩ ∧
    check_bytes (.inline [3]) 7 [5, 6] ⟨[0], [0]⟩ = .ok ⟨[0], [0]⟩ := by
  have h := validator_checks_region_once 0 2 [5, 6] 4 [9, 9] (by decide) (by decide)
    (by decide)
  exact ⟨h.1, h.2.1 7 ⟨[0], [0]⟩ (by decide), h.2.2 [3] 7 ⟨[0], [0]⟩ (by decide)⟩

/-- C6: every primitive capability call on the `InternSerializerAdapter`
returns the same result as calling the wrapped serializer directly — arguments
and successful results unchanged, with only the adapter's own state component
updated to the wrapped serializer's new state and the registry untouched —
and failures propagate wrapped as `SerializerError` for serializer-side errors
and `InternError` for registry-side errors, never silently swallowed. -/
theorem adapter_pure_delegation {σ τ ε ι α ρ μ : Type}
    (a : InternSerializerAdapter σ τ) (p : σ → Nat)
    (w : σ → List Nat → Except ε σ) (bytes : List Nat)
    (pd : σ → Nat → Except ε σ) (padding : Nat)
    (al : σ → Nat → Except ε (Nat × σ)) (alignment : Nat)
    (af : σ → Except ε (Nat × σ))
    (ra : σ → α → ρ → Except ε (Nat × σ)) (value : α) (resolver : ρ)
    (ru : σ → α → Nat → μ → Except ε (Nat × σ)) (toPos : Nat) (mr : μ)
    (psc : σ → Nat → Except ε (Nat × σ)) (layout : Nat)
    (ppc : σ → Nat → Nat → Except ε σ) (ptr : Nat)
    (g : σ → Nat → Option Nat) (sp : Nat)
    (ad : σ → Nat → Nat → Except ε σ) (spos : Nat)
    (gi : τ → Content → Option Nat) (iv : Content)
    (ai : τ → Content → Nat → Except ι τ) (ipos : Nat) :
    InternSerializerAdapter.pos p a = p a.serializer ∧
    (InternSerializerAdapter.write w a bytes =
      match w a.serializer bytes with
      | .ok s => .ok ⟨s, a.intern_registry⟩
      | .error e => .error (.SerializerError e : InternSerializerAdapterError ε ι)) ∧
    (InternSerializerAdapter.pad pd a padding =
      match pd a.serializer padding with
      | .ok s => .ok ⟨s, a.intern_registry⟩
      | .error e => .error (.SerializerError e : InternSerializerAdapterError ε ι)) ∧
    (InternSerializerAdapter.align al a alignment =
      match al a.serializer alignment with
      | .ok r => .ok (r.1, ⟨r.2, a.intern_registry⟩)
      | .error e => .error (.SerializerError e : InternSerializerAdapterError ε ι)) ∧
    (InternSerializerAdapter.align_for af a =
      match af a.serializer with
      | .ok r => .ok (r.1, ⟨r.2, a.intern_registry⟩)
      | .error e => .error (.SerializerError e : InternSerializerAdapterError ε ι)) ∧
    (InternSerializerAdapter.resolve_aligned ra a value resolver =
      match ra a.serializer value resolver with
      | .ok r => .ok (r.1, ⟨r.2, a.intern_registry⟩)
      | .error e => .error (.SerializerError e : InternSerializerAdapterError ε ι)) ∧
    (InternSerializerAdapter.resolve_unsized_aligned ru a value toPos mr =
      match ru a.serializer value toPos mr with
      | .ok r => .ok (r.1, ⟨r.2, a.intern_registry⟩)
      | .error e => .error (.SerializerError e : InternSerializerAdapterError ε ι)) ∧
    (InternSerializerAdapter.push_scratch psc a layout =
      match psc a.serializer layout with
      | .ok r => .ok (r.1, ⟨r.2, a.intern_registry⟩)
      | .error e => .error (.SerializerError e : InternSerializerAdapterError ε ι)) ∧
    (InternSerializerAdapter.pop_scratch ppc a ptr layout =
      match ppc a.serializer ptr layout with
      | .ok s => .ok ⟨s, a.intern_registry⟩
      | .error e => .error (.SerializerError e : InternSerializerAdapterError ε ι)) ∧
    InternSerializerAdapter.get_shared_ptr g a sp = g a.serializer sp ∧
    (InternSerializerAdapter.add_shared_ptr ad a sp spos =
      match ad a.serializer sp spos with
      | .ok s => .ok ⟨s, a.intern_registry⟩
      | .error e => .error (.SerializerError e : InternSerializerAdapterError ε ι)) ∧
    InternSerializerAdapter.get_interned gi a iv = gi a.intern_registry iv ∧
    (InternSerializerAdapter.add_interned ai a iv ipos =
      match ai a.intern_registry iv ipos with
      | .ok t => .ok ⟨a.serializer, t⟩
      | .error e => .error (.InternError e : InternSerializerAdapterError ε ι)) := by
  refine ⟨rfl, ?_, ?_, ?_, ?_, ?_, ?_, ?_, ?_, rfl, ?_, rfl, ?_⟩
  · cases h : w a.serializer bytes <;>
      simp [InternSerializerAdapter.write, h, Except.map, Except.mapError]
  · cases h : pd a.serializer padding <;>
      simp [InternSerializerAdapter.pad, h, Except.map, Except.mapError]
  · cases h : al a.serializer alignment <;>
      simp [InternSerializerAdapter.align, h, Except.map, Except.mapError]
  · cases h : af a.serializer <;>
      simp [InternSerializerAdapter.align_for, h, Except.map, Except.mapError]
  · cases h : ra a.serializer value resolver <;>
      simp [InternSerializerAdapter.resolve_aligned, h, Except.map, Except.mapError]
  · cases h : ru a.serializer value toPos mr <;>
      simp [InternSerializerAdapter.resolve_unsized_aligned, h, Except.map,
        Except.mapError]
  · cases h : psc a.serializer layout <;>
      simp [InternSerializerAdapter.push_scratch, h, Except.map, Except.mapError]
  · cases h : ppc a.serializer ptr layout <;>
      simp [InternSerializerAdapter.pop_scratch, h, Except.map, Except.mapError]
  · cases h : ad a.serializer sp spos <;>
      simp [InternSerializerAdapter.add_shared_ptr, h, Except.map, Except.mapError]
  · cases h : ai a.intern_registry iv ipos <;>
      simp [InternSerializerAdapter.add_interned, h, Except.map, Except.mapError]
